import Mathlib

/-!
Shallow embedding of the netplan generator orchestrator (src/generate.c).

The program is modelled as a pure function from an environment -- CLI
arguments, the glob results of the three configuration directories, and the
behaviour of the external collaborators (YAML parser, backend writers) -- to
an outcome (exit code or abort) together with the ordered trace of
side-effecting calls the run performs.

Collaborator conventions:
  * parse_yaml either succeeds (none) or fails with an error message
    (some msg); generate.c prints the message and exits 1
    (process_input_file).
  * The merged model produced by the ingestion collaborator is given by the
    fields netdefs, ip_routing, ip_rules; the C global netdefs is a
    GHashTable that is non-NULL exactly when at least one network definition
    was parsed, so the C test "if (netdefs)" is modelled as nonemptiness of
    the netdefs list.
  * write_networkd_conf / write_networkd_global_ip_route /
    write_networkd_global_ip_rule return whether they produced output for
    the networkd backend; the environment records those boolean results.
  * File names are compared byte-wise with strcmp; for the valid UTF-8
    names involved this coincides with code-point-wise comparison of the
    underlying character list, which is how it is modelled here.
-/

namespace Netplan

/-- Origin tier of a discovered configuration source directory:
system-default (lib/netplan), site-admin (etc/netplan) and runtime-override
(run/netplan). -/
inductive Tier where
  | lib
  | etc
  | run
deriving DecidableEq, Repr

/-- A source path as the orchestrator sees it: an explicit positional file
(direct mode) or a file found by the three-tier glob, identified by its tier
and basename. -/
inductive SrcPath where
  | direct (p : String)
  | globbed (t : Tier) (base : String)
deriving DecidableEq, Repr

/-- The two rendering backends: networkd is service-managed, nm
(NetworkManager) is the integration backend. -/
inductive Backend where
  | networkd
  | nm
deriving DecidableEq, Repr

/-- One observable side-effecting call of a run, in program order. -/
inductive Event where
  | ingest (p : SrcPath)
  | cleanupNetworkd
  | cleanupNm
  | writeNetworkd (d : String) (produced : Bool)
  | writeNm (d : String)
  | nmConfFinish
  | globalRoute (r : String) (produced : Bool)
  | globalRule (r : String) (produced : Bool)
  | reloadUdevd
  | nmPolicyOverride
  | enableNetworkd (unitDir : String)
  | createStamp
deriving DecidableEq, Repr

/-- How the process ends: a normal exit with a code, or an abort raised by a
failed g_assert. -/
inductive Outcome where
  | exited (code : Nat)
  | aborted
deriving DecidableEq, Repr

/-- Result of one run: the outcome, the ordered trace of side-effecting
calls, and the messages printed to standard error. -/
structure RunResult where
  outcome : Outcome
  events : List Event
  stderr : List String
deriving DecidableEq, Repr

/-- Byte-wise (strcmp-style) less-or-equal on character lists. -/
def charListLe : List Char → List Char → Bool
  | [], _ => true
  | _ :: _, [] => false
  | a :: as, b :: bs => if a < b then true else if b < a then false else charListLe as bs

/-- strcmp(a, b) <= 0 on file names, via the underlying character lists. -/
def strLe (a b : String) : Prop := charListLe a.data b.data = true

/-- strcmp(a, b) < 0 on file names: less-or-equal and distinct. -/
def strLt (a b : String) : Prop := strLe a b ∧ a ≠ b

instance : DecidableRel strLe := fun a b => by
  unfold strLe; infer_instance

instance : DecidableRel strLt := fun a b => by
  unfold strLt; exact instDecidableAnd

instance : IsTotal String strLe := by
  constructor
  intro a b
  show charListLe a.data b.data = true ∨ charListLe b.data a.data = true
  generalize a.data = as
  generalize b.data = bs
  induction as generalizing bs with
  | nil => left; rfl
  | cons a as ih =>
    cases bs with
    | nil => right; rfl
    | cons b bs =>
      rcases lt_trichotomy a b with h | h | h
      · left; simp [charListLe, h]
      · subst h
        rcases ih bs with h2 | h2
        · left; simp [charListLe, h2]
        · right; simp [charListLe, h2]
      · right; simp [charListLe, h]

instance : IsTrans String strLe := by
  constructor
  intro a b c h1 h2
  show charListLe a.data c.data = true
  unfold strLe at h1 h2
  generalize a.data = as at h1 ⊢
  generalize b.data = bs at h1 h2
  generalize c.data = cs at h2 ⊢
  induction as generalizing bs cs with
  | nil => rfl
  | cons a as ih =>
    cases bs with
    | nil => simp [charListLe] at h1
    | cons b bs =>
      cases cs with
      | nil => simp [charListLe] at h2
      | cons c cs =>
        rcases lt_trichotomy a b with hab | hab | hab
        · rcases lt_trichotomy b c with hbc | hbc | hbc
          · simp [charListLe, lt_trans hab hbc]
          · subst hbc; simp [charListLe, hab]
          · simp [charListLe, hbc, not_lt_of_lt hbc] at h2
        · subst hab
          rcases lt_trichotomy a c with hac | hac | hac
          · simp [charListLe, hac]
          · subst hac
            simp [charListLe, lt_irrefl] at h1 h2 ⊢
            exact ih bs h1 cs h2
          · simp [charListLe, hac, not_lt_of_lt hac] at h2
        · simp [charListLe, hab, not_lt_of_lt hab] at h1

/-- g_hash_table_insert on an association list with string keys: replace the
value of an existing key, otherwise add the pair. -/
def hashInsert (m : List (String × Tier)) (k : String) (v : Tier) :
    List (String × Tier) :=
  match m with
  | [] => [(k, v)]
  | p :: rest => if p.1 = k then (k, v) :: rest else p :: hashInsert rest k v

/-- g_hash_table_lookup on an association list. -/
def hashLookup (m : List (String × Tier)) (k : String) : Option Tier :=
  match m with
  | [] => none
  | p :: rest => if p.1 = k then some p.2 else hashLookup rest k

/-- The run environment: parsed CLI state, glob results under the configured
root, and the behaviour of the external collaborators. -/
structure Env where
  /-- argv[0] contains "systemd/system-generators/". -/
  called_as_generator : Bool
  /-- The G_OPTION_REMAINING positional arguments; none models the NULL
  array left when no positional argument is given. -/
  files : Option (List String)
  /-- g_access(generator_run_stamp, F_OK) == 0: the stamp file
  files[0]/netplan.stamp already exists. -/
  stamp_exists : Bool
  /-- All three glob calls return 0 or GLOB_NOMATCH (a failing glob makes
  the run exit 1). -/
  glob_ok : Bool
  /-- Basenames matched by rootdir/lib/netplan/star.yaml, in glob order. -/
  lib_files : List String
  /-- Basenames matched by rootdir/etc/netplan/star.yaml, in glob order. -/
  etc_files : List String
  /-- Basenames matched by rootdir/run/netplan/star.yaml, in glob order. -/
  run_files : List String
  /-- Collaborator parse_yaml: none on success, some message on failure. -/
  parse_yaml : SrcPath → Option String
  /-- Collaborator finish_parse succeeds (its failure trips g_assert). -/
  finish_parse : Bool
  /-- Network definitions of the finalized model (keys of the C netdefs
  hash table; the table is non-NULL iff this list is nonempty). -/
  netdefs : List String
  /-- Entries of the global ip_routing table of the finalized model. -/
  ip_routing : List String
  /-- Entries of the global ip_rules table of the finalized model. -/
  ip_rules : List String
  /-- Result of collaborator write_networkd_conf for a given definition:
  whether networkd output was produced. -/
  write_networkd_conf : String → Bool
  /-- Result of collaborator write_networkd_global_ip_route. -/
  write_networkd_global_ip_route : String → Bool
  /-- Result of collaborator write_networkd_global_ip_rule. -/
  write_networkd_global_ip_rule : String → Bool
  /-- Collaborator get_global_backend: the resolved global renderer. -/
  get_global_backend : Backend
  /-- fopen(generator_run_stamp, "w") returns non-NULL (its failure trips
  g_assert). -/
  stamp_create_ok : Bool

/-- The combined glob results in the order the program accumulates them
(lib, then etc appended, then run appended), each path reduced to its
(basename, tier) pair. -/
def globEntries (env : Env) : List (String × Tier) :=
  env.lib_files.map (fun b => (b, Tier.lib))
    ++ env.etc_files.map (fun b => (b, Tier.etc))
    ++ env.run_files.map (fun b => (b, Tier.run))

/-- The configs hash table after inserting every globbed path keyed by its
basename, in accumulation order (later inserts overwrite earlier ones). -/
def configs (env : Env) : List (String × Tier) :=
  (globEntries env).foldl (fun m p => hashInsert m p.1 p.2) []

/-- The sorted key list: g_list_sort(g_hash_table_get_keys(configs), strcmp).
Modelled with insertion sort; on the duplicate-free key set of a hash table
any sort for the total antisymmetric order strLe yields the same list. -/
def config_keys (env : Env) : List String :=
  List.insertionSort strLe ((configs env).map Prod.fst)

/-- The sources ingested in default-discovery mode: the winning path for
each basename, in sorted basename order. -/
def discovered_sources (env : Env) : List SrcPath :=
  (config_keys env).filterMap
    (fun k => (hashLookup (configs env) k).map (fun t => SrcPath.globbed t k))

/-- The list of sources the run ingests: the positional files themselves in
direct (non-generator) mode, otherwise the default-discovery result. -/
def sources (env : Env) : List SrcPath :=
  if env.files.isSome ∧ env.called_as_generator = false then
    (env.files.getD []).map SrcPath.direct
  else
    discovered_sources env

/-- Process the input files in order (process_input_file): each attempt is
recorded; the first parse failure stops the run with its message. -/
def ingest_list (env : Env) (ps : List SrcPath) : List Event × Option String :=
  match ps with
  | [] => ([], none)
  | p :: rest =>
    match env.parse_yaml p with
    | some msg => ([Event.ingest p], some msg)
    | none =>
      let r := ingest_list env rest
      (Event.ingest p :: r.1, r.2)

/-- Final value of the any_networkd flag: it is only ever set inside the
"if (netdefs)" block, by the three iterators. -/
def any_networkd (env : Env) : Bool :=
  !env.netdefs.isEmpty
    && (env.netdefs.any env.write_networkd_conf
        || env.ip_routing.any env.write_networkd_global_ip_route
        || env.ip_rules.any env.write_networkd_global_ip_rule)

/-- Trace of nd_iterator over netdefs: one networkd write and one nm write
per definition. -/
def nd_events (env : Env) : List Event :=
  env.netdefs.flatMap
    (fun d => [Event.writeNetworkd d (env.write_networkd_conf d), Event.writeNm d])

/-- Trace of the "if (netdefs)" block: per-definition writes, the nm finish
step, write_global_routing over routes and rules, then reload_udevd. -/
def dispatch_events (env : Env) : List Event :=
  if env.netdefs.isEmpty then []
  else
    nd_events env
      ++ [Event.nmConfFinish]
      ++ env.ip_routing.map
          (fun r => Event.globalRoute r (env.write_networkd_global_ip_route r))
      ++ env.ip_rules.map
          (fun r => Event.globalRule r (env.write_networkd_global_ip_rule r))
      ++ [Event.reloadUdevd]

/-- Trace of the NetworkManager policy toggle: the empty override file is
written iff the resolved global renderer is NM. -/
def post_events (env : Env) : List Event :=
  if env.get_global_backend = Backend.nm then [Event.nmPolicyOverride] else []

/-- Trace of the generator tail: enable networkd when anything was written
for it, then create the stamp file (absent when fopen fails, since g_assert
aborts before fclose). -/
def gen_tail (env : Env) : List Event :=
  if env.called_as_generator = true then
    (if any_networkd env = true then
      [Event.enableNetworkd ((env.files.getD []).headD "")]
     else [])
      ++ (if env.stamp_create_ok = true then [Event.createStamp] else [])
  else []

/-- The whole run: main of generate.c. -/
def generate (env : Env) : RunResult :=
  if env.called_as_generator = true
      ∧ (env.files = none ∨ (env.files.getD []).length ≠ 3) then
    { outcome := .exited 1, events := [],
      stderr := ["can not be called directly, use netplan generate."] }
  else if env.called_as_generator = true ∧ env.stamp_exists = true then
    { outcome := .exited 0, events := [],
      stderr := ["netplan generate already ran, remove the stamp to force re-run"] }
  else if (env.files = none ∨ env.called_as_generator = true)
      ∧ env.glob_ok = false then
    { outcome := .exited 1, events := [], stderr := ["failed to glob"] }
  else
    match (ingest_list env (sources env)).2 with
    | some msg =>
      { outcome := .exited 1, events := (ingest_list env (sources env)).1,
        stderr := [msg] }
    | none =>
      if env.finish_parse = false then
        { outcome := .aborted, events := (ingest_list env (sources env)).1,
          stderr := [] }
      else if env.called_as_generator = true ∧ env.stamp_create_ok = false then
        { outcome := .aborted,
          events := (ingest_list env (sources env)).1
            ++ [Event.cleanupNetworkd, Event.cleanupNm]
            ++ dispatch_events env ++ post_events env ++ gen_tail env,
          stderr := [] }
      else
        { outcome := .exited 0,
          events := (ingest_list env (sources env)).1
            ++ [Event.cleanupNetworkd, Event.cleanupNm]
            ++ dispatch_events env ++ post_events env ++ gen_tail env,
          stderr := [] }

/-- The environment as the next invocation sees it: a run that created the
stamp file leaves it in place for the next run. -/
def env_after (env : Env) : Env :=
  if Event.createStamp ∈ (generate env).events then
    { env with stamp_exists := true }
  else env

/-- Tier winner stated the way the spec states precedence: runtime-override
beats site-admin beats system-default. -/
def winner (env : Env) (b : String) : Option Tier :=
  if b ∈ env.run_files then some Tier.run
  else if b ∈ env.etc_files then some Tier.etc
  else if b ∈ env.lib_files then some Tier.lib
  else none

/-- Basename of a source path (a direct path stands for itself). -/
def src_basename : SrcPath → String
  | .direct p => p
  | .globbed _ b => b

/-- Whether an event writes backend output (managed or integration). -/
def is_backend_write : Event → Bool
  | .writeNetworkd _ _ => true
  | .writeNm _ => true
  | .nmConfFinish => true
  | .globalRoute _ _ => true
  | .globalRule _ _ => true
  | .nmPolicyOverride => true
  | _ => false

/-- Whether an event is a global-routing write (route or rule). -/
def is_global_routing : Event → Bool
  | .globalRoute _ _ => true
  | .globalRule _ _ => true
  | _ => false

/-- Branch conditions under which the run reaches the dispatch phase: the
generator guard passes, the globs succeed when consulted, every source
parses, and finish_parse succeeds. -/
def reaches_dispatch (env : Env) : Prop :=
  (env.called_as_generator = true →
    env.files ≠ none ∧ (env.files.getD []).length = 3 ∧ env.stamp_exists = false)
  ∧ ((env.files = none ∨ env.called_as_generator = true) → env.glob_ok = true)
  ∧ (ingest_list env (sources env)).2 = none
  ∧ env.finish_parse = true

/-- Value that the last insertion for key b left in the table, over an
insertion list processed left to right. -/
def lastVal (L : List (String × Tier)) (b : String) : Option Tier :=
  match L with
  | [] => none
  | p :: rest => (lastVal rest b).or (if p.1 = b then some p.2 else none)

/-- A concrete base environment used to instantiate the theorems: a
non-generator default-discovery run over empty directories with trivially
succeeding collaborators and an empty finalized model. -/
def baseEnv : Env :=
  { called_as_generator := false, files := none, stamp_exists := false,
    glob_ok := true, lib_files := [], etc_files := [], run_files := [],
    parse_yaml := fun _ => none, finish_parse := true,
    netdefs := [], ip_routing := [], ip_rules := [],
    write_networkd_conf := fun _ => false,
    write_networkd_global_ip_route := fun _ => false,
    write_networkd_global_ip_rule := fun _ => false,
    get_global_backend := Backend.networkd, stamp_create_ok := true }

/-- Concrete generator-mode environment with three positional directories. -/
def genEnv : Env :=
  { baseEnv with called_as_generator := true, files := some ["d1", "d2", "d3"] }

/-- Concrete generator-mode environment with only two positional
directories. -/
def badArityEnv : Env :=
  { baseEnv with called_as_generator := true, files := some ["d1", "d2"] }

/-- Concrete environment with a nonempty finalized model whose writers all
report that no managed output was produced. -/
def modelEnv : Env :=
  { baseEnv with
    netdefs := ["eth0"]
    ip_routing := ["route0"]
    ip_rules := ["rule0"] }

/-- Concrete environment with no NetworkDefinitions but one RoutingEntry
whose writer would report managed output. -/
def emptyDefsEnv : Env :=
  { baseEnv with
    ip_routing := ["route0"]
    write_networkd_global_ip_route := fun _ => true }

/-- Concrete environment where one basename appears in both the
system-default and the runtime-override directory. -/
def dupBaseEnv : Env :=
  { baseEnv with lib_files := ["a.yaml"], run_files := ["a.yaml"] }

/-- Concrete environment whose second discovered source fails to parse. -/
def parseFailEnv : Env :=
  { baseEnv with
    etc_files := ["a.yaml", "b.yaml"]
    parse_yaml := fun q =>
      if q = SrcPath.globbed Tier.etc "b.yaml" then some "invalid YAML"
      else none }

theorem hashLookup_insert (m : List (String × Tier)) (k b : String) (v : Tier) :
    hashLookup (hashInsert m k v) b = if b = k then some v else hashLookup m b := by
  induction m with
  | nil => simp [hashInsert, hashLookup, eq_comm]
  | cons p rest ih =>
    by_cases hpk : p.1 = k
    · by_cases hbk : b = k
      · simp [hashInsert, hashLookup, hpk, hbk]
      · have hkb : ¬k = b := fun h => hbk h.symm
        have hpb : ¬p.1 = b := fun h => hbk (by rw [← h, hpk])
        simp [hashInsert, hashLookup, hpk, hbk, hkb, hpb]
    · by_cases hbk : b = k
      · subst hbk
        have hpb : ¬p.1 = b := hpk
        simp [hashInsert, hashLookup, hpk, hpb, ih]
      · simp [hashInsert, hashLookup, hpk, hbk, ih]

theorem hashLookup_foldl (L : List (String × Tier)) (m : List (String × Tier))
    (b : String) :
    hashLookup (L.foldl (fun m p => hashInsert m p.1 p.2) m) b
      = (lastVal L b).or (hashLookup m b) := by
  induction L generalizing m with
  | nil => simp [lastVal]
  | cons p rest ih =>
    rw [List.foldl_cons, ih, hashLookup_insert]
    show _ = ((lastVal rest b).or (if p.1 = b then some p.2 else none)).or _
    cases h : lastVal rest b with
    | some v => simp
    | none =>
      by_cases hb : p.1 = b
      · simp [hb, eq_comm]
      · have hb2 : ¬b = p.1 := fun h => hb h.symm
        simp [hb, hb2]

theorem lastVal_append (A B : List (String × Tier)) (b : String) :
    lastVal (A ++ B) b = (lastVal B b).or (lastVal A b) := by
  induction A with
  | nil => simp [lastVal]
  | cons p A ih =>
    show (lastVal (A ++ B) b).or _ = (lastVal B b).or ((lastVal A b).or _)
    rw [ih]
    cases lastVal B b <;> simp

theorem lastVal_map_const (l : List String) (t : Tier) (b : String) :
    lastVal (l.map (fun x => (x, t))) b = if b ∈ l then some t else none := by
  induction l with
  | nil => simp [lastVal]
  | cons a l ih =>
    show (lastVal (l.map fun x => (x, t)) b).or _ = _
    rw [ih]
    by_cases hbl : b ∈ l
    · simp [hbl]
    · by_cases hab : a = b
      · simp [hbl, hab]
      · have hba : ¬b = a := fun h => hab h.symm
        simp [hbl, hab, hba]

theorem configs_lookup (env : Env) (b : String) :
    hashLookup (configs env) b = winner env b := by
  unfold configs winner globEntries
  rw [hashLookup_foldl, lastVal_append, lastVal_append,
    lastVal_map_const, lastVal_map_const, lastVal_map_const]
  by_cases h1 : b ∈ env.run_files <;> by_cases h2 : b ∈ env.etc_files
    <;> by_cases h3 : b ∈ env.lib_files <;> simp [h1, h2, h3, hashLookup]

theorem mem_keys_insert (m : List (String × Tier)) (k b : String) (v : Tier) :
    b ∈ (hashInsert m k v).map Prod.fst ↔ b = k ∨ b ∈ m.map Prod.fst := by
  induction m with
  | nil => simp [hashInsert]
  | cons p rest ih =>
    by_cases hpk : p.1 = k
    · simp only [hashInsert, if_pos hpk, List.map_cons, List.mem_cons]
      rw [← hpk]
      tauto
    · simp only [hashInsert, if_neg hpk, List.map_cons, List.mem_cons, ih]
      tauto

theorem keys_nodup_insert (m : List (String × Tier)) (k : String) (v : Tier)
    (h : (m.map Prod.fst).Nodup) : ((hashInsert m k v).map Prod.fst).Nodup := by
  induction m with
  | nil => simp [hashInsert]
  | cons p rest ih =>
    rw [List.map_cons, List.nodup_cons] at h
    by_cases hpk : p.1 = k
    · simp only [hashInsert, if_pos hpk, List.map_cons, List.nodup_cons]
      exact ⟨hpk ▸ h.1, h.2⟩
    · simp only [hashInsert, if_neg hpk, List.map_cons, List.nodup_cons]
      refine ⟨?_, ih h.2⟩
      rw [mem_keys_insert]
      rintro (h1 | h1)
      · exact hpk h1
      · exact h.1 h1

theorem configs_keys_nodup (env : Env) : ((configs env).map Prod.fst).Nodup := by
  unfold configs
  generalize globEntries env = L
  have : ∀ (L : List (String × Tier)) (m : List (String × Tier)),
      (m.map Prod.fst).Nodup →
      ((L.foldl (fun m p => hashInsert m p.1 p.2) m).map Prod.fst).Nodup := by
    intro L
    induction L with
    | nil => intro m hm; simpa using hm
    | cons p rest ih =>
      intro m hm
      rw [List.foldl_cons]
      exact ih _ (keys_nodup_insert m p.1 p.2 hm)
  exact this L [] (by simp)

theorem hashLookup_eq_none (m : List (String × Tier)) (b : String) :
    hashLookup m b = none ↔ b ∉ m.map Prod.fst := by
  induction m with
  | nil => simp [hashLookup]
  | cons p rest ih =>
    by_cases hpb : p.1 = b
    · simp [hashLookup, hpb]
    · have hbp : ¬b = p.1 := fun h => hpb h.symm
      simp [hashLookup, hpb, hbp, ih]

theorem config_keys_perm (env : Env) :
    (config_keys env).Perm ((configs env).map Prod.fst) :=
  List.perm_insertionSort strLe ((configs env).map Prod.fst)

theorem config_keys_nodup (env : Env) : (config_keys env).Nodup :=
  (config_keys_perm env).nodup_iff.mpr (configs_keys_nodup env)

theorem mem_config_keys (env : Env) (b : String) :
    b ∈ config_keys env ↔ winner env b ≠ none := by
  rw [(config_keys_perm env).mem_iff, ← configs_lookup]
  constructor
  · intro h hn
    exact (hashLookup_eq_none (configs env) b).mp hn h
  · intro h
    by_contra hmem
    exact h ((hashLookup_eq_none (configs env) b).mpr hmem)

theorem config_keys_sorted (env : Env) :
    List.Pairwise strLe (config_keys env) :=
  List.sorted_insertionSort strLe ((configs env).map Prod.fst)

theorem config_keys_sorted_lt (env : Env) :
    List.Pairwise strLt (config_keys env) :=
  ((config_keys_sorted env).and (config_keys_nodup env)).imp (fun h => h)

theorem mem_discovered_sources (env : Env) (p : SrcPath) :
    p ∈ discovered_sources env
      ↔ ∃ t b, p = SrcPath.globbed t b ∧ winner env b = some t := by
  unfold discovered_sources
  rw [List.mem_filterMap]
  constructor
  · rintro ⟨k, hk, hfk⟩
    rw [configs_lookup] at hfk
    cases hw : winner env k with
    | none => rw [hw] at hfk; cases hfk
    | some t =>
      rw [hw] at hfk
      exact ⟨t, k, (Option.some.inj hfk).symm, hw⟩
  · rintro ⟨t, b, rfl, hw⟩
    refine ⟨b, (mem_config_keys env b).mpr (by simp [hw]), ?_⟩
    rw [configs_lookup, hw]
    rfl

theorem ingest_list_events_of_ok (env : Env) (ps : List SrcPath)
    (h : (ingest_list env ps).2 = none) :
    (ingest_list env ps).1 = ps.map Event.ingest := by
  induction ps with
  | nil => rfl
  | cons p rest ih =>
    cases hp : env.parse_yaml p with
    | some m => simp [ingest_list, hp] at h
    | none =>
      simp only [ingest_list, hp] at h ⊢
      simp only [List.map_cons, List.cons.injEq, true_and]
      exact ih h

theorem ingest_list_fail (env : Env) (pre post : List SrcPath) (p : SrcPath)
    (msg : String) (hpre : ∀ q ∈ pre, env.parse_yaml q = none)
    (hp : env.parse_yaml p = some msg) :
    ingest_list env (pre ++ p :: post) = ((pre ++ [p]).map Event.ingest, some msg) := by
  induction pre with
  | nil => simp [ingest_list, hp]
  | cons q pre ih =>
    have hq := hpre q (List.mem_cons_self q pre)
    have hrest := ih (fun r hr => hpre r (List.mem_cons_of_mem q hr))
    simp [ingest_list, hq, hrest]

theorem ingest_mem (env : Env) (ps : List SrcPath) (p : SrcPath)
    (h : Event.ingest p ∈ (ingest_list env ps).1) : p ∈ ps := by
  induction ps with
  | nil => cases h
  | cons q rest ih =>
    unfold ingest_list at h
    cases hq : env.parse_yaml q with
    | some m =>
      rw [hq] at h
      simp only [List.mem_singleton, Event.ingest.injEq] at h
      rw [h]
      exact List.mem_cons_self q rest
    | none =>
      rw [hq] at h
      rcases List.mem_cons.mp h with h1 | h1
      · rw [Event.ingest.inj h1]
        exact List.mem_cons_self q rest
      · exact List.mem_cons_of_mem q (ih h1)

theorem generate_of_reaches (env : Env) (h : reaches_dispatch env) :
    generate env =
      { outcome :=
          if env.called_as_generator = true ∧ env.stamp_create_ok = false
          then Outcome.aborted else Outcome.exited 0,
        events := (sources env).map Event.ingest
          ++ [Event.cleanupNetworkd, Event.cleanupNm]
          ++ dispatch_events env ++ post_events env ++ gen_tail env,
        stderr := [] } := by
  obtain ⟨hgen, hglob, hing, hfin⟩ := h
  have hnot1 : ¬(env.called_as_generator = true
      ∧ (env.files = none ∨ (env.files.getD []).length ≠ 3)) := by
    rintro ⟨hg, hbad⟩
    obtain ⟨hf, hl, _⟩ := hgen hg
    rcases hbad with hb | hb
    · exact hf hb
    · exact hb hl
  have hnot2 : ¬(env.called_as_generator = true ∧ env.stamp_exists = true) := by
    rintro ⟨hg, hs⟩
    obtain ⟨_, _, hse⟩ := hgen hg
    rw [hse] at hs
    cases hs
  have hnot3 : ¬((env.files = none ∨ env.called_as_generator = true)
      ∧ env.glob_ok = false) := by
    rintro ⟨hc, hgf⟩
    rw [hglob hc] at hgf
    cases hgf
  have hev := ingest_list_events_of_ok env (sources env) hing
  unfold generate
  rw [if_neg hnot1, if_neg hnot2, if_neg hnot3]
  simp [hing, hev, hfin]
  split_ifs <;> rfl

theorem map_globbed_eq_some {o : Option Tier} {k : String} {p : SrcPath}
    (h : o.map (fun t => SrcPath.globbed t k) = some p) : src_basename p = k := by
  cases o with
  | none => cases h
  | some t =>
    rw [← Option.some.inj h]
    rfl

theorem filter_base_eq (g : String → Option Tier) (ks : List String) (b : String)
    (hnd : ks.Nodup) (hb : b ∈ ks) (t : Tier) (hg : g b = some t) :
    (ks.filterMap (fun k => (g k).map (fun s => SrcPath.globbed s k))).filter
        (fun p => decide (src_basename p = b))
      = [SrcPath.globbed t b] := by
  induction ks with
  | nil => cases hb
  | cons k ks ih =>
    rw [List.nodup_cons] at hnd
    rcases List.mem_cons.mp hb with rfl | hbks
    · have hrest : (ks.filterMap
          (fun k2 => (g k2).map (fun s => SrcPath.globbed s k2))).filter
          (fun p => decide (src_basename p = b)) = [] := by
        rw [List.filter_eq_nil_iff]
        intro p hp
        rw [List.mem_filterMap] at hp
        obtain ⟨k2, hk2, hfk2⟩ := hp
        have hbase := map_globbed_eq_some hfk2
        rw [decide_eq_true_eq, hbase]
        intro heq
        exact hnd.1 (heq ▸ hk2)
      have hf : (g b).map (fun s => SrcPath.globbed s b)
          = some (SrcPath.globbed t b) := by
        rw [hg]
        rfl
      simp only [List.filterMap_cons, hf]
      rw [List.filter_cons_of_pos (by simp [src_basename]), hrest]
    · have hkb : ¬(k = b) := fun h => hnd.1 (h ▸ hbks)
      cases hgk : g k with
      | none =>
        have hf : (g k).map (fun s2 => SrcPath.globbed s2 k) = none := by
          rw [hgk]
          rfl
        simp only [List.filterMap_cons, hf]
        exact ih hnd.2 hbks
      | some s =>
        have hf : (g k).map (fun s2 => SrcPath.globbed s2 k)
            = some (SrcPath.globbed s k) := by
          rw [hgk]
          rfl
        simp only [List.filterMap_cons, hf]
        rw [List.filter_cons_of_neg (by simp [src_basename, hkb])]
        exact ih hnd.2 hbks

theorem ingest_not_in_dispatch (env : Env) (p : SrcPath) :
    Event.ingest p ∉ dispatch_events env := by
  unfold dispatch_events
  split
  · simp
  · intro h
    simp [nd_events, List.mem_append, List.mem_flatMap, List.mem_map] at h

theorem ingest_not_in_post (env : Env) (p : SrcPath) :
    Event.ingest p ∉ post_events env := by
  unfold post_events
  split <;> simp

theorem ingest_not_in_gen_tail (env : Env) (p : SrcPath) :
    Event.ingest p ∉ gen_tail env := by
  unfold gen_tail
  split
  · intro h
    rcases List.mem_append.mp h with h1 | h1
    · revert h1
      split <;> simp
    · revert h1
      split <;> simp
  · simp

theorem ingest_in_full_trace (env : Env) (p : SrcPath)
    (h : Event.ingest p ∈ (ingest_list env (sources env)).1
        ++ [Event.cleanupNetworkd, Event.cleanupNm]
        ++ dispatch_events env ++ post_events env ++ gen_tail env) :
    Event.ingest p ∈ (ingest_list env (sources env)).1 := by
  simp only [List.mem_append] at h
  rcases h with ((((h | h) | h) | h) | h)
  · exact h
  · simp at h
  · exact absurd h (ingest_not_in_dispatch env p)
  · exact absurd h (ingest_not_in_post env p)
  · exact absurd h (ingest_not_in_gen_tail env p)

theorem ingest_event_mem_sources (env : Env) (p : SrcPath)
    (h : Event.ingest p ∈ (generate env).events) : p ∈ sources env := by
  unfold generate at h
  by_cases h1 : env.called_as_generator = true
      ∧ (env.files = none ∨ (env.files.getD []).length ≠ 3)
  · rw [if_pos h1] at h
    cases h
  · rw [if_neg h1] at h
    by_cases h2 : env.called_as_generator = true ∧ env.stamp_exists = true
    · rw [if_pos h2] at h
      cases h
    · rw [if_neg h2] at h
      by_cases h3 : (env.files = none ∨ env.called_as_generator = true)
          ∧ env.glob_ok = false
      · rw [if_pos h3] at h
        cases h
      · rw [if_neg h3] at h
        cases hm : (ingest_list env (sources env)).2 with
        | some msg =>
          rw [hm] at h
          exact ingest_mem env (sources env) p h
        | none =>
          rw [hm] at h
          by_cases h4 : env.finish_parse = false
          · rw [if_pos h4] at h
            exact ingest_mem env (sources env) p h
          · rw [if_neg h4] at h
            have hmem : Event.ingest p ∈ (ingest_list env (sources env)).1 := by
              by_cases h5 : env.called_as_generator = true
                  ∧ env.stamp_create_ok = false
              · rw [if_pos h5] at h
                exact ingest_in_full_trace env p h
              · rw [if_neg h5] at h
                exact ingest_in_full_trace env p h
            exact ingest_mem env (sources env) p hmem

theorem filter_global_ingest (l : List SrcPath) :
    (l.map Event.ingest).filter is_global_routing = [] := by
  rw [List.filter_eq_nil_iff]
  intro e he
  rw [List.mem_map] at he
  obtain ⟨s, _, rfl⟩ := he
  simp [is_global_routing]

theorem filter_global_nd (env : Env) :
    (nd_events env).filter is_global_routing = [] := by
  rw [List.filter_eq_nil_iff]
  intro e he
  unfold nd_events at he
  rw [List.mem_flatMap] at he
  obtain ⟨d, _, hd⟩ := he
  simp only [List.mem_cons, List.not_mem_nil, or_false] at hd
  rcases hd with rfl | rfl <;> simp [is_global_routing]

theorem filter_global_routes (l : List String) (f : String → Bool) :
    (l.map (fun r => Event.globalRoute r (f r))).filter is_global_routing
      = l.map (fun r => Event.globalRoute r (f r)) := by
  rw [List.filter_eq_self]
  intro e he
  rw [List.mem_map] at he
  obtain ⟨r, _, rfl⟩ := he
  rfl

theorem filter_global_rules (l : List String) (f : String → Bool) :
    (l.map (fun r => Event.globalRule r (f r))).filter is_global_routing
      = l.map (fun r => Event.globalRule r (f r)) := by
  rw [List.filter_eq_self]
  intro e he
  rw [List.mem_map] at he
  obtain ⟨r, _, rfl⟩ := he
  rfl

theorem filter_global_post (env : Env) :
    (post_events env).filter is_global_routing = [] := by
  unfold post_events
  split <;> rfl

theorem filter_global_tail (env : Env) :
    (gen_tail env).filter is_global_routing = [] := by
  unfold gen_tail
  split
  · rw [List.filter_append]
    have h1 : (if any_networkd env = true
        then [Event.enableNetworkd ((env.files.getD []).headD "")]
        else []).filter is_global_routing = [] := by
      split <;> rfl
    have h2 : (if env.stamp_create_ok = true
        then [Event.createStamp] else []).filter is_global_routing = [] := by
      split <;> rfl
    rw [h1, h2]
    rfl
  · rfl

theorem enable_not_in_dispatch (env : Env) (u : String) :
    Event.enableNetworkd u ∉ dispatch_events env := by
  unfold dispatch_events
  split
  · simp
  · simp [nd_events]

theorem enable_not_in_post (env : Env) (u : String) :
    Event.enableNetworkd u ∉ post_events env := by
  unfold post_events
  split <;> simp

theorem enable_mem_gen_tail (env : Env) (hg : env.called_as_generator = true) :
    Event.enableNetworkd ((env.files.getD []).headD "") ∈ gen_tail env
      ↔ any_networkd env = true := by
  unfold gen_tail
  rw [if_pos hg]
  cases ha : any_networkd env with
  | true => simp
  | false =>
    cases hso : env.stamp_create_ok with
    | true => simp
    | false => simp

theorem reload_not_in_post (env : Env) :
    Event.reloadUdevd ∉ post_events env := by
  unfold post_events
  split <;> simp

theorem reload_not_in_tail (env : Env) :
    Event.reloadUdevd ∉ gen_tail env := by
  unfold gen_tail
  split
  · intro h
    rcases List.mem_append.mp h with h1 | h1
    · revert h1
      split <;> simp
    · revert h1
      split <;> simp
  · simp

theorem reload_mem_dispatch (env : Env) :
    Event.reloadUdevd ∈ dispatch_events env ↔ env.netdefs ≠ [] := by
  unfold dispatch_events
  split
  · rename_i hemp
    rw [List.isEmpty_iff] at hemp
    simp [hemp]
  · rename_i hemp
    rw [List.isEmpty_iff] at hemp
    simp [hemp, List.mem_append]

/-- C7: under the generator calling convention, any arity other than exactly
three positional arguments makes the run exit 1 before any filesystem side
effect: the event trace is empty, so no stamp write, no ingestion and no
backend output happens. -/
theorem c7_usage_arity (env : Env) (hg : env.called_as_generator = true)
    (hbad : env.files = none ∨ (env.files.getD []).length ≠ 3) :
    (generate env).outcome = Outcome.exited 1 ∧ (generate env).events = [] := by
  unfold generate
  rw [if_pos ⟨hg, hbad⟩]
  exact ⟨rfl, rfl⟩

/-- Witness for c7_usage_arity: a generator invocation with two positional
arguments. -/
theorem c7_usage_arity_witness :
    badArityEnv.called_as_generator = true
    ∧ (badArityEnv.files = none ∨ (badArityEnv.files.getD []).length ≠ 3)
    ∧ ((generate badArityEnv).outcome = Outcome.exited 1
      ∧ (generate badArityEnv).events = []) :=
  ⟨by decide, by decide, c7_usage_arity badArityEnv (by decide) (by decide)⟩

/-- C5: in generator mode with three positional directories, an existing
stamp file makes the run a no-op success (exit 0, no events), and a run that
created the stamp makes the next invocation against the same directories a
no-op success, so the generation work runs at most once. -/
theorem c5_stamp_idempotency (env : Env) (hg : env.called_as_generator = true)
    (hf : env.files ≠ none) (hl : (env.files.getD []).length = 3) :
    (env.stamp_exists = true →
      (generate env).outcome = Outcome.exited 0 ∧ (generate env).events = [])
    ∧ (Event.createStamp ∈ (generate env).events →
      (generate (env_after env)).outcome = Outcome.exited 0
        ∧ (generate (env_after env)).events = []) := by
  have hnot1 : ¬(env.called_as_generator = true
      ∧ (env.files = none ∨ (env.files.getD []).length ≠ 3)) := by
    rintro ⟨_, hb | hb⟩
    · exact hf hb
    · exact hb hl
  constructor
  · intro hs
    unfold generate
    rw [if_neg hnot1, if_pos ⟨hg, hs⟩]
    exact ⟨rfl, rfl⟩
  · intro hcs
    unfold env_after
    rw [if_pos hcs]
    have hnot1b : ¬(({ env with stamp_exists := true } : Env).called_as_generator
          = true
        ∧ (({ env with stamp_exists := true } : Env).files = none
          ∨ (({ env with stamp_exists := true } : Env).files.getD []).length
              ≠ 3)) := hnot1
    have hpos : ({ env with stamp_exists := true } : Env).called_as_generator
          = true
        ∧ ({ env with stamp_exists := true } : Env).stamp_exists = true :=
      ⟨hg, rfl⟩
    unfold generate
    rw [if_neg hnot1b, if_pos hpos]
    exact ⟨rfl, rfl⟩

/-- Witness for c5_stamp_idempotency: a generator run over three concrete
directories. -/
theorem c5_stamp_idempotency_witness :
    genEnv.called_as_generator = true
    ∧ genEnv.files ≠ none
    ∧ (genEnv.files.getD []).length = 3
    ∧ ((genEnv.stamp_exists = true →
        (generate genEnv).outcome = Outcome.exited 0
          ∧ (generate genEnv).events = [])
      ∧ (Event.createStamp ∈ (generate genEnv).events →
        (generate (env_after genEnv)).outcome = Outcome.exited 0
          ∧ (generate (env_after genEnv)).events = [])) :=
  ⟨by decide, by decide, by decide,
   c5_stamp_idempotency genEnv (by decide) (by decide) (by decide)⟩

/-- C10: under the generator calling convention the positional directories
are never ingested: the ingested source list is exactly the three-tier
discovery result, and every ingested path is a globbed path, never a direct
positional one. -/
theorem c10_generator_discovery (env : Env)
    (hg : env.called_as_generator = true) :
    sources env = discovered_sources env
    ∧ ∀ p, Event.ingest p ∈ (generate env).events
        → ∃ t b, p = SrcPath.globbed t b := by
  have hcond : ¬(env.files.isSome = true ∧ env.called_as_generator = false) := by
    rintro ⟨_, hgen⟩
    rw [hg] at hgen
    cases hgen
  have hsrc : sources env = discovered_sources env := by
    unfold sources
    rw [if_neg hcond]
  refine ⟨hsrc, fun p hp => ?_⟩
  have hmem : p ∈ sources env := ingest_event_mem_sources env p hp
  rw [hsrc] at hmem
  obtain ⟨t, b, rfl, _⟩ := (mem_discovered_sources env p).mp hmem
  exact ⟨t, b, rfl⟩

/-- Witness for c10_generator_discovery: the concrete generator
environment. -/
theorem c10_generator_discovery_witness :
    genEnv.called_as_generator = true
    ∧ (sources genEnv = discovered_sources genEnv
      ∧ ∀ p, Event.ingest p ∈ (generate genEnv).events
          → ∃ t b, p = SrcPath.globbed t b) :=
  ⟨by decide, c10_generator_discovery genEnv (by decide)⟩

/-- C3: in default-discovery mode a basename present in more than one of the
three source directories is ingested exactly once, and its tier is the
highest present in the order system-default < site-admin < runtime-override
(the winner function states precedence in exactly those words). -/
theorem c3_basename_precedence (env : Env) (b : String)
    (h2 : (b ∈ env.lib_files ∧ b ∈ env.etc_files)
        ∨ (b ∈ env.lib_files ∧ b ∈ env.run_files)
        ∨ (b ∈ env.etc_files ∧ b ∈ env.run_files)) :
    ∃ t, (discovered_sources env).filter
          (fun p => decide (src_basename p = b)) = [SrcPath.globbed t b]
      ∧ winner env b = some t := by
  have hw : ∃ t, winner env b = some t := by
    by_cases hr : b ∈ env.run_files
    · exact ⟨Tier.run, by simp [winner, hr]⟩
    · by_cases he : b ∈ env.etc_files
      · exact ⟨Tier.etc, by simp [winner, hr, he]⟩
      · rcases h2 with ⟨_, hx⟩ | ⟨_, hx⟩ | ⟨hx, _⟩
        · exact absurd hx he
        · exact absurd hx hr
        · exact absurd hx he
  obtain ⟨t, hwt⟩ := hw
  refine ⟨t, ?_, hwt⟩
  have hb : b ∈ config_keys env := (mem_config_keys env b).mpr (by simp [hwt])
  unfold discovered_sources
  exact filter_base_eq (hashLookup (configs env)) (config_keys env) b
    (config_keys_nodup env) hb t (by rw [configs_lookup]; exact hwt)

/-- Witness for c3_basename_precedence: one basename in both the
system-default and the runtime-override directory. -/
theorem c3_basename_precedence_witness :
    (("a.yaml" ∈ dupBaseEnv.lib_files ∧ "a.yaml" ∈ dupBaseEnv.etc_files)
      ∨ ("a.yaml" ∈ dupBaseEnv.lib_files ∧ "a.yaml" ∈ dupBaseEnv.run_files)
      ∨ ("a.yaml" ∈ dupBaseEnv.etc_files ∧ "a.yaml" ∈ dupBaseEnv.run_files))
    ∧ ∃ t, (discovered_sources dupBaseEnv).filter
          (fun p => decide (src_basename p = "a.yaml"))
          = [SrcPath.globbed t "a.yaml"]
      ∧ winner dupBaseEnv "a.yaml" = some t :=
  ⟨by decide, c3_basename_precedence dupBaseEnv "a.yaml" (by decide)⟩

/-- C4: default-discovery ingestion applies the surviving post-precedence
sources in strictly ascending byte-wise basename order, and the tier of each
emitted source is exactly the per-basename winner: tier precedence selects
which file wins per name, never the sequence across distinct names. -/
theorem c4_lexicographic_application_order (env : Env) :
    List.Pairwise (fun p q => strLt (src_basename p) (src_basename q))
        (discovered_sources env)
    ∧ ∀ p ∈ discovered_sources env,
        ∃ t b, p = SrcPath.globbed t b ∧ winner env b = some t := by
  constructor
  · unfold discovered_sources
    refine List.Pairwise.filterMap _ ?_ (config_keys_sorted_lt env)
    intro a a2 hR p hp q hq
    rw [Option.mem_def] at hp hq
    rw [map_globbed_eq_some hp, map_globbed_eq_some hq]
    exact hR
  · intro p hp
    exact (mem_discovered_sources env p).mp hp

/-- C1 (counterexample to the claim as stated): a run whose finalized model
has one NetworkDefinition but whose writers produce no managed output leaves
any_networkd false and still invokes reload_udevd, so the invalidation is
not conditioned on managed output having been produced. -/
theorem c1_counterexample :
    any_networkd modelEnv = false
    ∧ Event.reloadUdevd ∈ (generate modelEnv).events := by
  decide

/-- C1 (amended): the cache invalidation runs iff the finalized model has at
least one NetworkDefinition; in particular it runs whenever managed output
was produced, but it also runs when a nonempty model produced none. -/
theorem c1_reload_iff_netdefs (env : Env) (h : reaches_dispatch env) :
    (Event.reloadUdevd ∈ (generate env).events ↔ env.netdefs ≠ [])
    ∧ (any_networkd env = true → Event.reloadUdevd ∈ (generate env).events) := by
  have hev : (generate env).events = (sources env).map Event.ingest
      ++ [Event.cleanupNetworkd, Event.cleanupNm]
      ++ dispatch_events env ++ post_events env ++ gen_tail env := by
    rw [generate_of_reaches env h]
  have hmem : Event.reloadUdevd ∈ (generate env).events ↔ env.netdefs ≠ [] := by
    rw [hev]
    simp only [List.mem_append]
    constructor
    · rintro ((((h1 | h1) | h1) | h1) | h1)
      · rw [List.mem_map] at h1
        obtain ⟨s, _, hs⟩ := h1
        simp at hs
      · simp at h1
      · exact (reload_mem_dispatch env).mp h1
      · exact absurd h1 (reload_not_in_post env)
      · exact absurd h1 (reload_not_in_tail env)
    · intro hne
      exact Or.inl (Or.inl (Or.inr ((reload_mem_dispatch env).mpr hne)))
  refine ⟨hmem, fun ha => hmem.mpr ?_⟩
  intro hne
  unfold any_networkd at ha
  rw [hne] at ha
  simp at ha

/-- Witness for c1_reload_iff_netdefs: a run with one NetworkDefinition. -/
theorem c1_reload_iff_netdefs_witness :
    reaches_dispatch modelEnv
    ∧ ((Event.reloadUdevd ∈ (generate modelEnv).events
        ↔ modelEnv.netdefs ≠ [])
      ∧ (any_networkd modelEnv = true
        → Event.reloadUdevd ∈ (generate modelEnv).events)) :=
  ⟨by unfold reaches_dispatch; decide,
   c1_reload_iff_netdefs modelEnv (by unfold reaches_dispatch; decide)⟩

/-- C2 (counterexample to the claim as stated): with an empty
NetworkDefinition collection the run completes with exit 0, yet the global
writer is invoked zero times although a RoutingEntry whose writer would
report managed output is present, so the per-entry invocation does not hold
regardless of the NetworkDefinition collection being empty. -/
theorem c2_counterexample :
    emptyDefsEnv.ip_routing ≠ []
    ∧ (generate emptyDefsEnv).outcome = Outcome.exited 0
    ∧ (generate emptyDefsEnv).events.filter is_global_routing = [] := by
  decide

/-- C2 (amended): in every run that reaches dispatch, when the
NetworkDefinition collection is nonempty the managed backend global writer
is invoked exactly once per RoutingEntry and RuleEntry in the two global
collections with any_networkd the OR of all per-call results, and when the
NetworkDefinition collection is empty the global writers are never invoked
and any_networkd stays false. -/
theorem c2_global_routing_dispatch (env : Env) (h : reaches_dispatch env) :
    (env.netdefs ≠ [] →
      ((generate env).events.filter is_global_routing
        = env.ip_routing.map
            (fun r => Event.globalRoute r (env.write_networkd_global_ip_route r))
          ++ env.ip_rules.map
            (fun r => Event.globalRule r (env.write_networkd_global_ip_rule r))
      ∧ any_networkd env
          = (env.netdefs.any env.write_networkd_conf
              || env.ip_routing.any env.write_networkd_global_ip_route
              || env.ip_rules.any env.write_networkd_global_ip_rule)))
    ∧ (env.netdefs = [] →
      ((generate env).events.filter is_global_routing = []
        ∧ any_networkd env = false)) := by
  have hev : (generate env).events = (sources env).map Event.ingest
      ++ [Event.cleanupNetworkd, Event.cleanupNm]
      ++ dispatch_events env ++ post_events env ++ gen_tail env := by
    rw [generate_of_reaches env h]
  constructor
  · intro hnd
    have hemp : env.netdefs.isEmpty = false := by
      cases hx : env.netdefs
      · exact absurd hx hnd
      · rfl
    constructor
    · rw [hev]
      have hd : dispatch_events env
          = nd_events env ++ [Event.nmConfFinish]
            ++ env.ip_routing.map
              (fun r => Event.globalRoute r (env.write_networkd_global_ip_route r))
            ++ env.ip_rules.map
              (fun r => Event.globalRule r (env.write_networkd_global_ip_rule r))
            ++ [Event.reloadUdevd] := by
        unfold dispatch_events
        rw [if_neg (by rw [hemp]; simp)]
      rw [hd]
      simp only [List.filter_append, filter_global_ingest, filter_global_nd,
        filter_global_routes, filter_global_rules, filter_global_post,
        filter_global_tail]
      simp [is_global_routing]
    · unfold any_networkd
      rw [hemp]
      simp
  · intro hnd
    have hemp : env.netdefs.isEmpty = true := by
      rw [hnd]
      rfl
    constructor
    · rw [hev]
      have hd : dispatch_events env = [] := by
        unfold dispatch_events
        rw [if_pos hemp]
      rw [hd]
      simp only [List.filter_append, filter_global_ingest, filter_global_post,
        filter_global_tail]
      simp [is_global_routing]
    · unfold any_networkd
      rw [hemp]
      simp

/-- Witness for c2_global_routing_dispatch: one definition, one route and
one rule. -/
theorem c2_global_routing_dispatch_witness :
    reaches_dispatch modelEnv
    ∧ ((modelEnv.netdefs ≠ [] →
        ((generate modelEnv).events.filter is_global_routing
          = modelEnv.ip_routing.map
              (fun r => Event.globalRoute r
                (modelEnv.write_networkd_global_ip_route r))
            ++ modelEnv.ip_rules.map
              (fun r => Event.globalRule r
                (modelEnv.write_networkd_global_ip_rule r))
        ∧ any_networkd modelEnv
            = (modelEnv.netdefs.any modelEnv.write_networkd_conf
                || modelEnv.ip_routing.any
                    modelEnv.write_networkd_global_ip_route
                || modelEnv.ip_rules.any
                    modelEnv.write_networkd_global_ip_rule)))
      ∧ (modelEnv.netdefs = [] →
        ((generate modelEnv).events.filter is_global_routing = []
          ∧ any_networkd modelEnv = false))) :=
  ⟨by unfold reaches_dispatch; decide,
   c2_global_routing_dispatch modelEnv (by unfold reaches_dispatch; decide)⟩

/-- C9: every run that reaches the dispatch phase performs both backend
cleanup calls before any backend write: the trace decomposes into a prefix
without backend writes, the two cleanup calls, then the remainder. -/
theorem c9_cleanup_before_write (env : Env) (h : reaches_dispatch env) :
    ∃ pre post, (generate env).events
        = pre ++ Event.cleanupNetworkd :: Event.cleanupNm :: post
      ∧ pre.all (fun e => !is_backend_write e) = true := by
  refine ⟨(sources env).map Event.ingest,
    dispatch_events env ++ post_events env ++ gen_tail env, ?_, ?_⟩
  · rw [generate_of_reaches env h]
    simp [List.append_assoc]
  · rw [List.all_eq_true]
    intro e he
    rw [List.mem_map] at he
    obtain ⟨s, _, rfl⟩ := he
    rfl

/-- Witness for c9_cleanup_before_write: the base environment. -/
theorem c9_cleanup_before_write_witness :
    reaches_dispatch baseEnv
    ∧ ∃ pre post, (generate baseEnv).events
        = pre ++ Event.cleanupNetworkd :: Event.cleanupNm :: post
      ∧ pre.all (fun e => !is_backend_write e) = true :=
  ⟨by unfold reaches_dispatch; decide,
   c9_cleanup_before_write baseEnv (by unfold reaches_dispatch; decide)⟩

/-- C8: a parse failure on a source terminates the run immediately with exit
code 1 and the source-supplied message on standard error; the trace contains
only the ingestion attempts up to and including the failing source, so no
later source is ingested and no cleanup or write happens. -/
theorem c8_parse_error_fail_fast (env : Env) (pre post : List SrcPath)
    (p : SrcPath) (msg : String)
    (hgen : env.called_as_generator = true →
      env.files ≠ none ∧ (env.files.getD []).length = 3
        ∧ env.stamp_exists = false)
    (hglob : (env.files = none ∨ env.called_as_generator = true) →
      env.glob_ok = true)
    (hsrc : sources env = pre ++ p :: post)
    (hpre : ∀ q ∈ pre, env.parse_yaml q = none)
    (hfail : env.parse_yaml p = some msg) :
    generate env = { outcome := Outcome.exited 1,
                     events := (pre ++ [p]).map Event.ingest,
                     stderr := [msg] } := by
  have hnot1 : ¬(env.called_as_generator = true
      ∧ (env.files = none ∨ (env.files.getD []).length ≠ 3)) := by
    rintro ⟨hg, hbad⟩
    obtain ⟨hf, hl, _⟩ := hgen hg
    rcases hbad with hb | hb
    · exact hf hb
    · exact hb hl
  have hnot2 : ¬(env.called_as_generator = true ∧ env.stamp_exists = true) := by
    rintro ⟨hg, hb⟩
    obtain ⟨_, _, hse⟩ := hgen hg
    rw [hse] at hb
    cases hb
  have hnot3 : ¬((env.files = none ∨ env.called_as_generator = true)
      ∧ env.glob_ok = false) := by
    rintro ⟨hc, hgf⟩
    rw [hglob hc] at hgf
    cases hgf
  have hing : ingest_list env (sources env)
      = ((pre ++ [p]).map Event.ingest, some msg) := by
    rw [hsrc]
    exact ingest_list_fail env pre post p msg hpre hfail
  unfold generate
  rw [if_neg hnot1, if_neg hnot2, if_neg hnot3, hing]

/-- Witness for c8_parse_error_fail_fast: the second discovered source fails
to parse after the first succeeded. -/
theorem c8_parse_error_fail_fast_witness :
    sources parseFailEnv = [SrcPath.globbed Tier.etc "a.yaml"]
        ++ SrcPath.globbed Tier.etc "b.yaml" :: []
    ∧ (∀ q ∈ [SrcPath.globbed Tier.etc "a.yaml"],
        parseFailEnv.parse_yaml q = none)
    ∧ parseFailEnv.parse_yaml (SrcPath.globbed Tier.etc "b.yaml")
        = some "invalid YAML"
    ∧ generate parseFailEnv
        = { outcome := Outcome.exited 1,
            events := ([SrcPath.globbed Tier.etc "a.yaml"]
              ++ [SrcPath.globbed Tier.etc "b.yaml"]).map Event.ingest,
            stderr := ["invalid YAML"] } :=
  ⟨by decide, by decide, by decide,
   c8_parse_error_fail_fast parseFailEnv
     [SrcPath.globbed Tier.etc "a.yaml"] []
     (SrcPath.globbed Tier.etc "b.yaml") "invalid YAML"
     (by decide) (by decide) (by decide) (by decide) (by decide)⟩

/-- C6: on a generator run with the stamp absent, a successful exit always
has the stamp creation as its last event (so exit 0 never leaves the stamp
uncreated), the managed service is enabled with the first positional
directory iff any managed output was produced, and a failing stamp creation
aborts the run instead of reporting success. -/
theorem c6_generator_completion (env : Env)
    (hg : env.called_as_generator = true)
    (hf : env.files ≠ none) (hl : (env.files.getD []).length = 3)
    (hs : env.stamp_exists = false) :
    ((generate env).outcome = Outcome.exited 0 →
      (generate env).events.getLast? = some Event.createStamp)
    ∧ (reaches_dispatch env →
      ((Event.enableNetworkd ((env.files.getD []).headD "")
            ∈ (generate env).events
          ↔ any_networkd env = true)
        ∧ (env.stamp_create_ok = true →
            (generate env).outcome = Outcome.exited 0)
        ∧ (env.stamp_create_ok = false →
            (generate env).outcome = Outcome.aborted))) := by
  have hnot1 : ¬(env.called_as_generator = true
      ∧ (env.files = none ∨ (env.files.getD []).length ≠ 3)) := by
    rintro ⟨_, hb | hb⟩
    · exact hf hb
    · exact hb hl
  have hnot2 : ¬(env.called_as_generator = true ∧ env.stamp_exists = true) := by
    rintro ⟨_, hb⟩
    rw [hs] at hb
    cases hb
  constructor
  · unfold generate
    rw [if_neg hnot1, if_neg hnot2]
    by_cases h3 : (env.files = none ∨ env.called_as_generator = true)
        ∧ env.glob_ok = false
    · rw [if_pos h3]
      intro hout
      simp at hout
    · rw [if_neg h3]
      cases hm : (ingest_list env (sources env)).2 with
      | some msg =>
        intro hout
        simp at hout
      | none =>
        by_cases h4 : env.finish_parse = false
        · rw [if_pos h4]
          intro hout
          simp at hout
        · rw [if_neg h4]
          by_cases h5 : env.called_as_generator = true
              ∧ env.stamp_create_ok = false
          · rw [if_pos h5]
            intro hout
            simp at hout
          · rw [if_neg h5]
            intro _
            have hso : env.stamp_create_ok = true := by
              cases hy : env.stamp_create_ok
              · exact absurd ⟨hg, hy⟩ h5
              · rfl
            have htail : gen_tail env
                = (if any_networkd env = true
                    then [Event.enableNetworkd ((env.files.getD []).headD "")]
                    else []) ++ [Event.createStamp] := by
              unfold gen_tail
              rw [if_pos hg, if_pos hso]
            show ((ingest_list env (sources env)).1
                ++ [Event.cleanupNetworkd, Event.cleanupNm]
                ++ dispatch_events env ++ post_events env
                ++ gen_tail env).getLast? = some Event.createStamp
            rw [htail, List.getLast?_append, List.getLast?_append]
            rfl
  · intro hr
    have hres := generate_of_reaches env hr
    refine ⟨?_, fun hso => ?_, fun hso => ?_⟩
    · constructor
      · intro hmem
        rw [hres] at hmem
        simp only [List.mem_append] at hmem
        rcases hmem with ((((h1 | h1) | h1) | h1) | h1)
        · rw [List.mem_map] at h1
          obtain ⟨s, _, hs1⟩ := h1
          simp at hs1
        · simp at h1
        · exact absurd h1 (enable_not_in_dispatch env _)
        · exact absurd h1 (enable_not_in_post env _)
        · exact (enable_mem_gen_tail env hg).mp h1
      · intro ha
        rw [hres]
        simp only [List.mem_append]
        exact Or.inr ((enable_mem_gen_tail env hg).mpr ha)
    · rw [hres]
      simp [hso]
    · rw [hres]
      simp [hso, hg]

/-- Witness for c6_generator_completion: the concrete generator
environment. -/
theorem c6_generator_completion_witness :
    genEnv.called_as_generator = true
    ∧ genEnv.files ≠ none
    ∧ (genEnv.files.getD []).length = 3
    ∧ genEnv.stamp_exists = false
    ∧ (((generate genEnv).outcome = Outcome.exited 0 →
        (generate genEnv).events.getLast? = some Event.createStamp)
      ∧ (reaches_dispatch genEnv →
        ((Event.enableNetworkd ((genEnv.files.getD []).headD "")
              ∈ (generate genEnv).events
            ↔ any_networkd genEnv = true)
          ∧ (genEnv.stamp_create_ok = true →
              (generate genEnv).outcome = Outcome.exited 0)
          ∧ (genEnv.stamp_create_ok = false →
              (generate genEnv).outcome = Outcome.aborted)))) :=
  ⟨by decide, by decide, by decide, by decide,
   c6_generator_completion genEnv (by decide) (by decide) (by decide)
     (by decide)⟩

end Netplan
